import Mathlib

/-!
Verification development for `example/daubechies_wavelets/find_best_daubechies_interpolator.cpp`.

The program sweeps vanishing-moment counts `p = 2, …, 15`.  For each `p` it
builds a dense reference grid `phi_dense` of Daubechies scaling-function
values (library call `dyadic_grid` at refinement level `rmax = 17`), and for
each resolution `r = 2, …, 15` it measures the sup-norm error of a family of
interpolation schemes on that reference grid, inserts the errors into a
`std::map<Real, std::string>` and writes them to a CSV file, finally printing
the scheme of least recorded error.

Real arithmetic (`float128` in the source) is modelled by `ℚ` (exact
arithmetic); the external Boost library calls (`dyadic_grid` and the
library-provided interpolators) are abstracted as an `ExternalLib` record of
unknown functions, while the interpolators defined in this file
(`linear`, `fotaylor`, `sotaylor`, `totaylor`) are translated term by term.
-/

/-- The sup-accumulation loop of the source: starting from `sup = 0`,
for `i = 0, …, n-1` replace `sup` by `err i` whenever `err i > sup`.
`supLoop err n` is the state after `n` iterations. -/
def supLoop (err : ℕ → ℚ) : ℕ → ℚ
  | 0 => 0
  | n + 1 => if err n > supLoop err n then err n else supLoop err n

/-- `s` is the value the sup-loop computes over `err 0, …, err (n-1)`:
it bounds every error in range and is either `0` (the initial value)
or one of the errors. -/
def IsSupOf (s : ℚ) (err : ℕ → ℚ) (n : ℕ) : Prop :=
  (∀ i, i < n → err i ≤ s) ∧ (s = 0 ∨ ∃ i, i < n ∧ s = err i)

/-- `size_t kk = static_cast<size_t>(floor((1 << r) * x))` — the lower grid
index used by the ad-hoc interpolators. -/
def linearIndex (r : ℕ) (x : ℚ) : ℕ :=
  (⌊(2 ^ r : ℚ) * x⌋).toNat

/-- The ad-hoc linear interpolator (source lines 207–221): zero outside the
open support `(0, 2p-1)`, otherwise the convex combination of the two
neighbouring grid values. -/
def linear (phi : List ℚ) (p r : ℕ) (x : ℚ) : ℚ :=
  if x ≤ 0 ∨ 2 * (p : ℚ) - 1 ≤ x then 0
  else
    let y : ℚ := (2 ^ r : ℚ) * x
    let k : ℤ := ⌊y⌋
    let kk : ℕ := k.toNat
    let t : ℚ := y - k
    (1 - t) * phi.getD kk 0 + t * phi.getD (kk + 1) 0

/-- The first-order Taylor interpolator (source lines 372–394). -/
def fotaylor (phi phi_prime : List ℚ) (p r : ℕ) (x : ℚ) : ℚ :=
  if x ≤ 0 ∨ 2 * (p : ℚ) - 1 ≤ x then 0
  else
    let y : ℚ := (2 ^ r : ℚ) * x
    let k : ℤ := ⌊y⌋
    let kk : ℕ := k.toNat
    if y - k < k + 1 - y then
      let eps : ℚ := (y - k) / (2 ^ r : ℚ)
      phi.getD kk 0 + eps * phi_prime.getD kk 0
    else
      let eps : ℚ := (y - k - 1) / (2 ^ r : ℚ)
      phi.getD (kk + 1) 0 + eps * phi_prime.getD (kk + 1) 0

/-- The second-order Taylor interpolator (source lines 438–459). -/
def sotaylor (phi phi_prime phi_dbl_prime : List ℚ) (p r : ℕ) (x : ℚ) : ℚ :=
  if x ≤ 0 ∨ 2 * (p : ℚ) - 1 ≤ x then 0
  else
    let y : ℚ := (2 ^ r : ℚ) * x
    let k : ℤ := ⌊y⌋
    let kk : ℕ := k.toNat
    if y - k < k + 1 - y then
      let eps : ℚ := (y - k) / (2 ^ r : ℚ)
      phi.getD kk 0 + eps * phi_prime.getD kk 0 + eps * eps * phi_dbl_prime.getD kk 0 / 2
    else
      let eps : ℚ := (y - k - 1) / (2 ^ r : ℚ)
      phi.getD (kk + 1) 0 + eps * phi_prime.getD (kk + 1) 0
        + eps * eps * phi_dbl_prime.getD (kk + 1) 0 / 2

/-- The third-order Taylor interpolator (source lines 488–508).  Note the
source's second branch reads `phi_triple_prime[kk]`, not `[kk+1]`; this is
reproduced faithfully. -/
def totaylor (phi phi_prime phi_dbl_prime phi_triple_prime : List ℚ)
    (p r : ℕ) (x : ℚ) : ℚ :=
  if x ≤ 0 ∨ 2 * (p : ℚ) - 1 ≤ x then 0
  else
    let y : ℚ := (2 ^ r : ℚ) * x
    let k : ℤ := ⌊y⌋
    let kk : ℕ := k.toNat
    if y - k < k + 1 - y then
      let eps : ℚ := (y - k) / (2 ^ r : ℚ)
      phi.getD kk 0 + eps * phi_prime.getD kk 0
        + eps * eps * phi_dbl_prime.getD kk 0 / 2
        + eps * eps * eps * phi_triple_prime.getD kk 0 / 6
    else
      let eps : ℚ := (y - k - 1) / (2 ^ r : ℚ)
      phi.getD (kk + 1) 0 + eps * phi_prime.getD (kk + 1) 0
        + eps * eps * phi_dbl_prime.getD (kk + 1) 0 / 2
        + eps * eps * eps * phi_triple_prime.getD kk 0 / 6

/-- The external Boost calls the program delegates to, abstracted as
unknown (but fixed) functions.  `dyadicGrid p d r` stands for
`boost::math::detail::dyadic_grid<Real, p, d>(r)`; the remaining fields are
the library interpolator constructors, each already applied to its
construction data and returning the evaluation function `ℚ → ℚ`. -/
structure ExternalLib where
  dyadicGrid : ℕ → ℕ → ℕ → List ℚ
  matchedHolder : List ℚ → List ℚ → ℕ → ℚ → ℚ
  quadraticBSpline : List ℚ → ℚ → ℚ → ℚ → ℚ → ℚ → ℚ
  cubicBSpline : List ℚ → ℚ → ℚ → ℚ → ℚ → ℚ → ℚ
  quinticBSpline : List ℚ → ℚ → ℚ → ℚ → ℚ
  cubicHermite : List ℚ → List ℚ → ℚ → ℚ → ℚ → ℚ
  pchipInterp : List ℚ → List ℚ → ℚ → ℚ
  makimaInterp : List ℚ → List ℚ → ℚ → ℚ
  quinticHermite : List ℚ → List ℚ → List ℚ → ℚ → ℚ → ℚ → ℚ
  septicHermite : List ℚ → List ℚ → List ℚ → List ℚ → ℚ → ℚ → ℚ → ℚ

/-- `phi_dense`: the reference grid, `dyadic_grid<…, p, 0>(rmax)` with
`rmax = 17` (source lines 140–148). -/
def phiDense (lib : ExternalLib) (p : ℕ) : List ℚ :=
  lib.dyadicGrid p 0 17

/-- Number of reference-grid points. -/
def NDense (lib : ExternalLib) (p : ℕ) : ℕ :=
  (phiDense lib p).length

/-- `Real dx_dense = (2*p-1)/static_cast<Real>(phi_dense.size()-1)`. -/
def dxDense (lib : ExternalLib) (p : ℕ) : ℚ :=
  (2 * (p : ℚ) - 1) / ((NDense lib p - 1 : ℕ) : ℚ)

/-- Candidate grid `phi` at resolution `r` (source line 175). -/
def phiGrid (lib : ExternalLib) (p r : ℕ) : List ℚ :=
  lib.dyadicGrid p 0 r

/-- Candidate derivative grid `phi_prime` (source line 176). -/
def phiPrimeGrid (lib : ExternalLib) (p r : ℕ) : List ℚ :=
  lib.dyadicGrid p 1 r

/-- Candidate second-derivative grid (source lines 417, 485). -/
def phiDblPrimeGrid (lib : ExternalLib) (p r : ℕ) : List ℚ :=
  lib.dyadicGrid p 2 r

/-- Candidate third-derivative grid (source line 486). -/
def phiTriplePrimeGrid (lib : ExternalLib) (p r : ℕ) : List ℚ :=
  lib.dyadicGrid p 3 r

/-- `Real dx = (2*p-1)/static_cast<Real>(x.size()-1)` where `x.size() = phi.size()`
(source line 179). -/
def dxGrid (lib : ExternalLib) (p r : ℕ) : ℚ :=
  (2 * (p : ℚ) - 1) / (((phiGrid lib p r).length - 1 : ℕ) : ℚ)

/-- The abscissa vector `x[i] = i*dx` (source lines 181–184). -/
def xGrid (lib : ExternalLib) (p r : ℕ) : List ℚ :=
  (List.range (phiGrid lib p r).length).map (fun i : ℕ => (i : ℚ) * dxGrid lib p r)

/-- Pointwise error of the `matched_holder` scheme at reference index `i`. -/
def mhErr (lib : ExternalLib) (p r : ℕ) (i : ℕ) : ℚ :=
  |(phiDense lib p).getD i 0 -
    lib.matchedHolder (phiGrid lib p r) (phiPrimeGrid lib p r) r ((i : ℚ) * dxDense lib p)|

/-- Pointwise error of the ad-hoc linear scheme. -/
def linErr (lib : ExternalLib) (p r : ℕ) (i : ℕ) : ℚ :=
  |(phiDense lib p).getD i 0 - linear (phiGrid lib p r) p r ((i : ℚ) * dxDense lib p)|

/-- Pointwise error of the quadratic B-spline (endpoint derivatives
`phi_prime.front()`, `phi_prime.back()`). -/
def qbsErr (lib : ExternalLib) (p r : ℕ) (i : ℕ) : ℚ :=
  |(phiDense lib p).getD i 0 -
    lib.quadraticBSpline (phiGrid lib p r) 0 (dxGrid lib p r)
      ((phiPrimeGrid lib p r).headD 0) ((phiPrimeGrid lib p r).getLastD 0)
      ((i : ℚ) * dxDense lib p)|

/-- Pointwise error of the cubic B-spline. -/
def cbsErr (lib : ExternalLib) (p r : ℕ) (i : ℕ) : ℚ :=
  |(phiDense lib p).getD i 0 -
    lib.cubicBSpline (phiGrid lib p r) 0 (dxGrid lib p r)
      ((phiPrimeGrid lib p r).headD 0) ((phiPrimeGrid lib p r).getLastD 0)
      ((i : ℚ) * dxDense lib p)|

/-- Pointwise error of the quintic B-spline (its `{0,0}` endpoint data is a
constant of the source, folded into the abstract constructor). -/
def qnbsErr (lib : ExternalLib) (p r : ℕ) (i : ℕ) : ℚ :=
  |(phiDense lib p).getD i 0 -
    lib.quinticBSpline (phiGrid lib p r) 0 (dxGrid lib p r) ((i : ℚ) * dxDense lib p)|

/-- Pointwise error of the cardinal cubic Hermite spline. -/
def chErr (lib : ExternalLib) (p r : ℕ) (i : ℕ) : ℚ :=
  |(phiDense lib p).getD i 0 -
    lib.cubicHermite (phiGrid lib p r) (phiPrimeGrid lib p r) 0 (dxGrid lib p r)
      ((i : ℚ) * dxDense lib p)|

/-- Pointwise error of `pchip`. -/
def pchipErr (lib : ExternalLib) (p r : ℕ) (i : ℕ) : ℚ :=
  |(phiDense lib p).getD i 0 -
    lib.pchipInterp (xGrid lib p r) (phiGrid lib p r) ((i : ℚ) * dxDense lib p)|

/-- Pointwise error of `makima`. -/
def makimaErr (lib : ExternalLib) (p r : ℕ) (i : ℕ) : ℚ :=
  |(phiDense lib p).getD i 0 -
    lib.makimaInterp (xGrid lib p r) (phiGrid lib p r) ((i : ℚ) * dxDense lib p)|

/-- Pointwise error of the first-order Taylor scheme. -/
def foErr (lib : ExternalLib) (p r : ℕ) (i : ℕ) : ℚ :=
  |(phiDense lib p).getD i 0 -
    fotaylor (phiGrid lib p r) (phiPrimeGrid lib p r) p r ((i : ℚ) * dxDense lib p)|

/-- Pointwise error of the cardinal quintic Hermite spline. -/
def qhErr (lib : ExternalLib) (p r : ℕ) (i : ℕ) : ℚ :=
  |(phiDense lib p).getD i 0 -
    lib.quinticHermite (phiGrid lib p r) (phiPrimeGrid lib p r) (phiDblPrimeGrid lib p r)
      0 (dxGrid lib p r) ((i : ℚ) * dxDense lib p)|

/-- Pointwise error of the second-order Taylor scheme. -/
def soErr (lib : ExternalLib) (p r : ℕ) (i : ℕ) : ℚ :=
  |(phiDense lib p).getD i 0 -
    sotaylor (phiGrid lib p r) (phiPrimeGrid lib p r) (phiDblPrimeGrid lib p r) p r
      ((i : ℚ) * dxDense lib p)|

/-- Pointwise error of the third-order Taylor scheme. -/
def toErr (lib : ExternalLib) (p r : ℕ) (i : ℕ) : ℚ :=
  |(phiDense lib p).getD i 0 -
    totaylor (phiGrid lib p r) (phiPrimeGrid lib p r) (phiDblPrimeGrid lib p r)
      (phiTriplePrimeGrid lib p r) p r ((i : ℚ) * dxDense lib p)|

/-- Pointwise error of the cardinal septic Hermite spline. -/
def septicErr (lib : ExternalLib) (p r : ℕ) (i : ℕ) : ℚ :=
  |(phiDense lib p).getD i 0 -
    lib.septicHermite (phiGrid lib p r) (phiPrimeGrid lib p r) (phiDblPrimeGrid lib p r)
      (phiTriplePrimeGrid lib p r) 0 (dxGrid lib p r) ((i : ℚ) * dxDense lib p)|

/-- Sup-norm error recorded for `matched_holder`.  The source loop stops at
`phi_dense.size() - 1` ("call to matched_holder is unchecked, so only go to
phi_dense.size() - 1", source line 191). -/
def mhSup (lib : ExternalLib) (p r : ℕ) : ℚ :=
  supLoop (mhErr lib p r) (NDense lib p - 1)

/-- Sup-norm error recorded for the linear scheme (full reference range). -/
def linSup (lib : ExternalLib) (p r : ℕ) : ℚ :=
  supLoop (linErr lib p r) (NDense lib p)

/-- Sup-norm error recorded for the quadratic B-spline. -/
def qbsSup (lib : ExternalLib) (p r : ℕ) : ℚ :=
  supLoop (qbsErr lib p r) (NDense lib p)

/-- Sup-norm error recorded for the cubic B-spline. -/
def cbsSup (lib : ExternalLib) (p r : ℕ) : ℚ :=
  supLoop (cbsErr lib p r) (NDense lib p)

/-- Sup-norm error recorded for the quintic B-spline. -/
def qnbsSup (lib : ExternalLib) (p r : ℕ) : ℚ :=
  supLoop (qnbsErr lib p r) (NDense lib p)

/-- Sup-norm error recorded for the cubic Hermite spline. -/
def chSup (lib : ExternalLib) (p r : ℕ) : ℚ :=
  supLoop (chErr lib p r) (NDense lib p)

/-- Sup-norm error recorded for `pchip`. -/
def pchipSup (lib : ExternalLib) (p r : ℕ) : ℚ :=
  supLoop (pchipErr lib p r) (NDense lib p)

/-- Sup-norm error recorded for `makima`. -/
def makimaSup (lib : ExternalLib) (p r : ℕ) : ℚ :=
  supLoop (makimaErr lib p r) (NDense lib p)

/-- Sup-norm error recorded for the first-order Taylor scheme. -/
def foSup (lib : ExternalLib) (p r : ℕ) : ℚ :=
  supLoop (foErr lib p r) (NDense lib p)

/-- Sup-norm error recorded for the quintic Hermite spline. -/
def qhSup (lib : ExternalLib) (p r : ℕ) : ℚ :=
  supLoop (qhErr lib p r) (NDense lib p)

/-- Sup-norm error recorded for the second-order Taylor scheme. -/
def soSup (lib : ExternalLib) (p r : ℕ) : ℚ :=
  supLoop (soErr lib p r) (NDense lib p)

/-- Sup-norm error recorded for the third-order Taylor scheme. -/
def toSup (lib : ExternalLib) (p r : ℕ) : ℚ :=
  supLoop (toErr lib p r) (NDense lib p)

/-- Sup-norm error recorded for the septic Hermite spline. -/
def septicSup (lib : ExternalLib) (p r : ℕ) : ℚ :=
  supLoop (septicErr lib p r) (NDense lib p)

/-- The `(error, method-name)` pairs in source order: nine unconditional
blocks, two more under `if constexpr (p > 2)`, two more under
`if constexpr (p > 3)`.  These are the values inserted into `m` and written
to the CSV row. -/
def schemeSups (lib : ExternalLib) (p r : ℕ) : List (ℚ × String) :=
  [(mhSup lib p r, "matched_holder"),
   (linSup lib p r, "linear interpolation"),
   (qbsSup lib p r, "quadratic_b_spline"),
   (cbsSup lib p r, "cubic_b_spline"),
   (qnbsSup lib p r, "quintic_b_spline"),
   (chSup lib p r, "cubic_hermite_spline"),
   (pchipSup lib p r, "pchip"),
   (makimaSup lib p r, "makima"),
   (foSup lib p r, "First-order Taylor")]
  ++ (if 2 < p then
        [(qhSup lib p r, "quintic_hermite_spline"),
         (soSup lib p r, "Second-order Taylor")]
      else [])
  ++ (if 3 < p then
        [(toSup lib p r, "Third-order Taylor"),
         (septicSup lib p r, "septic_hermite_spline")]
      else [])

/-- One `std::map` insertion: the list is kept sorted by strictly increasing
key, and inserting an already-present key leaves the map unchanged. -/
def mapInsert : List (ℚ × String) → ℚ × String → List (ℚ × String)
  | [], kv => [kv]
  | e :: rest, kv =>
      if kv.1 < e.1 then kv :: e :: rest
      else if e.1 < kv.1 then e :: mapInsert rest kv
      else e :: rest

/-- The map `m` after all `m.insert({sup, name})` calls of one `(p, r)` round. -/
def mMap (lib : ExternalLib) (p r : ℕ) : List (ℚ × String) :=
  (schemeSups lib p r).foldl mapInsert []

/-- The selection loop over `m` (source lines 546–557): starting from
`best = "none"`, `best_sup = 1000000000`, take any entry whose key is
strictly below the current best. -/
def selectLoop : List (ℚ × String) → String × ℚ → String × ℚ
  | [], acc => acc
  | e :: rest, acc => selectLoop rest (if e.1 < acc.2 then (e.2, e.1) else acc)

/-- The method name and error printed as "The best method for p = …". -/
def bestSelection (lib : ExternalLib) (p r : ℕ) : String × ℚ :=
  selectLoop (mMap lib p r) ("none", 1000000000)

/-- CSV column names, as written in the header row (source lines 154–170). -/
def csvHeader (p : ℕ) : List String :=
  ["r", "matched_holder", "linear", "quadratic_b_spline", "cubic_b_spline",
   "quintic_b_spline", "cubic_hermite", "pchip", "makima", "fo_taylor"]
  ++ (if 2 < p then ["quintic_hermite", "second_order_taylor"] else [])
  ++ (if 3 < p then ["third_order_taylor", "septic_hermite"] else [])

/-- A CSV file: its name, its single header row, and one data row per
resolution, each holding the resolution and the recorded errors. -/
structure CsvFile where
  name : String
  header : List String
  rows : List (ℕ × List ℚ)
deriving DecidableEq

/-- The CSV file one call `find_best_interpolator<…, p>()` writes: name
`daubechies_<p>_scaling_convergence.csv`, the header, and for
`r = 2, …, rmax - 2 = 15` (loop `for (int r = 2; r < rmax-1; ++r)`) the row
`r` followed by the recorded errors in write order. -/
def csvOutput (lib : ExternalLib) (p : ℕ) : CsvFile :=
  ⟨"daubechies_" ++ toString p ++ "_scaling_convergence.csv",
   csvHeader p,
   (List.range' 2 14).map (fun r => (r, (schemeSups lib p r).map Prod.fst))⟩

/-- Events of one program run, in program order. -/
inductive Event where
  | buildGrid (deriv : ℕ) (level : ℕ)
  | writeCsvRow (r : ℕ)
  | evalScheme (name : String)
  | printBest (p : ℕ)
deriving DecidableEq

/-- The events of one iteration of the `r` loop, in source order. -/
def rowTrace (p r : ℕ) : List Event :=
  [Event.writeCsvRow r, Event.buildGrid 0 r, Event.buildGrid 1 r,
   Event.evalScheme "matched_holder",
   Event.evalScheme "linear interpolation",
   Event.evalScheme "quadratic_b_spline",
   Event.evalScheme "cubic_b_spline",
   Event.evalScheme "quintic_b_spline",
   Event.evalScheme "cubic_hermite_spline",
   Event.evalScheme "pchip",
   Event.evalScheme "makima",
   Event.evalScheme "First-order Taylor"]
  ++ (if 2 < p then
        [Event.buildGrid 2 r,
         Event.evalScheme "quintic_hermite_spline",
         Event.evalScheme "Second-order Taylor"]
      else [])
  ++ (if 3 < p then
        [Event.buildGrid 2 r, Event.buildGrid 3 r,
         Event.evalScheme "Third-order Taylor",
         Event.evalScheme "septic_hermite_spline"]
      else [])
  ++ [Event.printBest p]

/-- The event trace of one call `find_best_interpolator<…, p>()`: the
reference grid is built at level `rmax = 17` first, then the `r` loop runs. -/
def fbiTrace (p : ℕ) : List Event :=
  Event.buildGrid 0 17 :: (List.range' 2 14).flatMap (rowTrace p)

/-- The vanishing-moment counts `main` passes to `find_best_interpolator`,
in call order (source lines 567–593). -/
def mainCalls : List ℕ :=
  [2, 3, 4, 5, 6, 7, 8, 9, 10, 11, 12, 13, 14, 15]

/-- The whole program's CSV output.  `main` takes no arguments and reads no
input; the `input` parameter stands for the process environment
(command line, stdin) and is ignored, as the source ignores it. -/
def runProgram (lib : ExternalLib) (input : List String) : List CsvFile :=
  mainCalls.map (csvOutput lib)

/-- The whole program's event trace, likewise ignoring the process input. -/
def runTrace (lib : ExternalLib) (input : List String) : List Event :=
  mainCalls.flatMap fbiTrace

lemma supLoop_le_succ (err : ℕ → ℚ) (n : ℕ) : supLoop err n ≤ supLoop err (n + 1) := by
  simp only [supLoop]
  split_ifs with h
  · exact le_of_lt h
  · exact le_refl _

lemma le_supLoop (err : ℕ → ℚ) {i n : ℕ} (h : i < n) : err i ≤ supLoop err n := by
  induction n with
  | zero => omega
  | succ n ih =>
    rcases Nat.lt_succ_iff_lt_or_eq.mp h with h' | h'
    · exact le_trans (ih h') (supLoop_le_succ err n)
    · subst h'
      simp only [supLoop]
      split_ifs with hgt
      · exact le_refl _
      · exact not_lt.mp hgt

lemma supLoop_cases (err : ℕ → ℚ) (n : ℕ) :
    supLoop err n = 0 ∨ ∃ i, i < n ∧ supLoop err n = err i := by
  induction n with
  | zero => exact Or.inl rfl
  | succ n ih =>
    simp only [supLoop]
    split_ifs with hgt
    · exact Or.inr ⟨n, Nat.lt_succ_self n, rfl⟩
    · rcases ih with h | ⟨i, hi, hh⟩
      · exact Or.inl h
      · exact Or.inr ⟨i, Nat.lt_succ_of_lt hi, hh⟩

lemma supLoop_isSupOf (err : ℕ → ℚ) (n : ℕ) : IsSupOf (supLoop err n) err n :=
  ⟨fun _ h => le_supLoop err h, supLoop_cases err n⟩

lemma selectLoop_spec (l : List (ℚ × String)) (acc : String × ℚ) :
    (selectLoop l acc = acc ∧ ∀ e ∈ l, acc.2 ≤ e.1) ∨
    (∃ e ∈ l, selectLoop l acc = (e.2, e.1) ∧ e.1 < acc.2 ∧ ∀ f ∈ l, e.1 ≤ f.1) := by
  induction l generalizing acc with
  | nil => exact Or.inl ⟨rfl, by simp⟩
  | cons e rest ih =>
    by_cases h : e.1 < acc.2
    · have hsel : selectLoop (e :: rest) acc = selectLoop rest (e.2, e.1) := by
        simp [selectLoop, h]
      rcases ih (e.2, e.1) with ⟨heq, hall⟩ | ⟨f, hf, heq, hlt, hall⟩
      · refine Or.inr ⟨e, List.mem_cons_self e rest, ?_, h, ?_⟩
        · rw [hsel, heq]
        · intro f hf
          rcases List.mem_cons.mp hf with hfe | hf'
          · rw [hfe]
          · exact hall f hf'
      · refine Or.inr ⟨f, List.mem_cons_of_mem e hf, ?_, lt_trans hlt h, ?_⟩
        · rw [hsel, heq]
        · intro g hg
          rcases List.mem_cons.mp hg with hge | hg'
          · rw [hge]; exact le_of_lt hlt
          · exact hall g hg'
    · have hsel : selectLoop (e :: rest) acc = selectLoop rest acc := by
        simp [selectLoop, h]
      push_neg at h
      rcases ih acc with ⟨heq, hall⟩ | ⟨f, hf, heq, hlt, hall⟩
      · refine Or.inl ⟨by rw [hsel, heq], ?_⟩
        intro f hf
        rcases List.mem_cons.mp hf with hfe | hf'
        · rw [hfe]; exact h
        · exact hall f hf'
      · refine Or.inr ⟨f, List.mem_cons_of_mem e hf, by rw [hsel, heq], hlt, ?_⟩
        intro g hg
        rcases List.mem_cons.mp hg with hge | hg'
        · rw [hge]; exact le_trans (le_of_lt hlt) h
        · exact hall g hg'

lemma schemeSups_length (lib : ExternalLib) (p r : ℕ) :
    (schemeSups lib p r).length =
      9 + (if 2 < p then 2 else 0) + (if 3 < p then 2 else 0) := by
  unfold schemeSups
  split_ifs <;> simp

lemma csvHeader_length (p : ℕ) :
    (csvHeader p).length =
      10 + (if 2 < p then 2 else 0) + (if 3 < p then 2 else 0) := by
  unfold csvHeader
  split_ifs <;> simp

/-- C1: for every vanishing-moment count `p` and resolution `r`, once all
schemes' sup-norm errors are in the map `m`, the method the selection loop
prints as best is one whose recorded error is less than or equal to the
recorded error of every other scheme in `m` (provided some recorded error is
below the loop's initial bound `1000000000`, which every actual sup-norm
error is). -/
theorem best_method_has_minimal_recorded_error (lib : ExternalLib) (p r : ℕ)
    (h : ∃ e ∈ mMap lib p r, e.1 < 1000000000) :
    ∃ e ∈ mMap lib p r, bestSelection lib p r = (e.2, e.1) ∧
      ∀ f ∈ mMap lib p r, e.1 ≤ f.1 := by
  rcases selectLoop_spec (mMap lib p r) ("none", 1000000000) with
    ⟨_, hall⟩ | ⟨e, he, heq, _, hall⟩
  · rcases h with ⟨e, he, hlt⟩
    exact absurd (hall e he) (not_le.mpr hlt)
  · refine ⟨e, he, ?_, hall⟩
    simpa [bestSelection] using heq

/-- Trivial instantiation of the external library: every grid is empty and
every interpolator returns `0`. -/
def wLib : ExternalLib :=
  ⟨fun _ _ _ => [], fun _ _ _ _ => 0, fun _ _ _ _ _ _ => 0, fun _ _ _ _ _ _ => 0,
   fun _ _ _ _ => 0, fun _ _ _ _ _ => 0, fun _ _ _ => 0, fun _ _ _ => 0,
   fun _ _ _ _ _ _ => 0, fun _ _ _ _ _ _ _ => 0⟩

/-- Witness for C1 at `p = 2`, `r = 2` over the trivial library. -/
theorem best_method_has_minimal_recorded_error_witness :
    (∃ e ∈ mMap wLib 2 2, e.1 < 1000000000) ∧
    (∃ e ∈ mMap wLib 2 2, bestSelection wLib 2 2 = (e.2, e.1) ∧
      ∀ f ∈ mMap wLib 2 2, e.1 ≤ f.1) :=
  ⟨by decide, best_method_has_minimal_recorded_error wLib 2 2 (by decide)⟩

/-- C2 (amended): every recorded error is the sup of the pointwise errors of
its scheme over the reference indices it sweeps; every scheme sweeps the full
index range `[0, phi_dense.size())` except `matched_holder`, whose loop stops
at `phi_dense.size() - 1`. -/
theorem recorded_error_is_sup_over_swept_range (lib : ExternalLib) (p r : ℕ) :
    IsSupOf (mhSup lib p r) (mhErr lib p r) (NDense lib p - 1) ∧
    IsSupOf (linSup lib p r) (linErr lib p r) (NDense lib p) ∧
    IsSupOf (qbsSup lib p r) (qbsErr lib p r) (NDense lib p) ∧
    IsSupOf (cbsSup lib p r) (cbsErr lib p r) (NDense lib p) ∧
    IsSupOf (qnbsSup lib p r) (qnbsErr lib p r) (NDense lib p) ∧
    IsSupOf (chSup lib p r) (chErr lib p r) (NDense lib p) ∧
    IsSupOf (pchipSup lib p r) (pchipErr lib p r) (NDense lib p) ∧
    IsSupOf (makimaSup lib p r) (makimaErr lib p r) (NDense lib p) ∧
    IsSupOf (foSup lib p r) (foErr lib p r) (NDense lib p) ∧
    IsSupOf (qhSup lib p r) (qhErr lib p r) (NDense lib p) ∧
    IsSupOf (soSup lib p r) (soErr lib p r) (NDense lib p) ∧
    IsSupOf (toSup lib p r) (toErr lib p r) (NDense lib p) ∧
    IsSupOf (septicSup lib p r) (septicErr lib p r) (NDense lib p) :=
  ⟨supLoop_isSupOf _ _, supLoop_isSupOf _ _, supLoop_isSupOf _ _,
   supLoop_isSupOf _ _, supLoop_isSupOf _ _, supLoop_isSupOf _ _,
   supLoop_isSupOf _ _, supLoop_isSupOf _ _, supLoop_isSupOf _ _,
   supLoop_isSupOf _ _, supLoop_isSupOf _ _, supLoop_isSupOf _ _,
   supLoop_isSupOf _ _⟩

/-- A concrete external library on which the truncated `matched_holder`
sweep is visible: the reference grid is `[0, 0, 1]`, the candidate grids are
`[0, 1, 0]`, and every library interpolator returns `0`. -/
def cxLib : ExternalLib :=
  ⟨fun _ _ lvl => if lvl = 17 then [0, 0, 1] else [0, 1, 0],
   fun _ _ _ _ => 0, fun _ _ _ _ _ _ => 0, fun _ _ _ _ _ _ => 0,
   fun _ _ _ _ => 0, fun _ _ _ _ _ => 0, fun _ _ _ => 0, fun _ _ _ => 0,
   fun _ _ _ _ _ _ => 0, fun _ _ _ _ _ _ _ => 0⟩

lemma supLoop_succ_eq (err : ℕ → ℚ) (n : ℕ) :
    supLoop err (n + 1) = if err n > supLoop err n then err n else supLoop err n := rfl

/-- C2 counterexample: the error inserted into `m` for `matched_holder` is
not the maximum over the whole reference range — at `p = 2`, `r = 2` over
`cxLib`, the pointwise error at the last in-range reference index `2`
strictly exceeds the recorded error. -/
theorem matched_holder_skips_last_reference_point :
    (mhSup cxLib 2 2, "matched_holder") ∈ schemeSups cxLib 2 2 ∧
    2 < NDense cxLib 2 ∧ mhSup cxLib 2 2 < mhErr cxLib 2 2 2 := by
  have e0 : mhErr cxLib 2 2 0 = 0 := by
    simp [mhErr, cxLib, phiDense]
  have e1 : mhErr cxLib 2 2 1 = 0 := by
    simp [mhErr, cxLib, phiDense]
  have e2 : mhErr cxLib 2 2 2 = 1 := by
    simp [mhErr, cxLib, phiDense]
  have hsup : mhSup cxLib 2 2 = 0 := by
    have h2 : mhSup cxLib 2 2 = supLoop (mhErr cxLib 2 2) 2 := rfl
    rw [h2, show (2 : ℕ) = 1 + 1 from rfl, supLoop_succ_eq, supLoop_succ_eq]
    rw [show supLoop (mhErr cxLib 2 2) 0 = 0 from rfl, e0, e1]
    norm_num
  refine ⟨?_, by decide, ?_⟩
  · simp [schemeSups]
  · rw [hsup, e2]
    norm_num

/-- Witness for C2 at `p = 2`, `r = 2` over `cxLib` (the linear scheme's
component). -/
theorem recorded_error_is_sup_over_swept_range_witness :
    IsSupOf (linSup cxLib 2 2) (linErr cxLib 2 2) (NDense cxLib 2) :=
  (recorded_error_is_sup_over_swept_range cxLib 2 2).2.1

/-- C3: `main` calls `find_best_interpolator` exactly once for each
`p = 2, …, 15` (each such `p` occurs, no `p` occurs twice, and the calls are
in increasing order), and each invocation's first event is building the
reference grid `phi_dense` at refinement level `rmax = 17`, before any
interpolation scheme is evaluated. -/
theorem main_sweeps_p_and_builds_reference_first :
    (∀ q, q ∈ mainCalls ↔ 2 ≤ q ∧ q ≤ 15) ∧ mainCalls.Nodup ∧
    mainCalls.Sorted (· < ·) ∧
    ∀ p, (fbiTrace p).head? = some (Event.buildGrid 0 17) := by
  refine ⟨?_, by decide, by decide, fun p => rfl⟩
  intro q
  constructor
  · intro hq
    fin_cases hq <;> omega
  · rintro ⟨h1, h2⟩
    interval_cases q <;> decide

/-- C4 counterexample: at `p = 2` the program evaluates nine interpolation
schemes per resolution, not a dozen. -/
theorem scheme_count_at_p_two_is_nine :
    (schemeSups wLib 2 2).length = 9 ∧ (schemeSups wLib 2 2).length ≠ 12 := by
  constructor <;> simp [schemeSups]

/-- C4 (amended): per resolution, `find_best_interpolator` evaluates nine
interpolation schemes when `p = 2`, eleven when `p = 3` (adding the quintic
Hermite spline and second-order Taylor), and thirteen when `p > 3` (adding
also the third-order Taylor and septic Hermite spline) — never twelve. -/
theorem scheme_count_depends_on_p (lib : ExternalLib) (p r : ℕ) :
    (schemeSups lib p r).length =
      9 + (if 2 < p then 2 else 0) + (if 3 < p then 2 else 0) :=
  schemeSups_length lib p r

/-- C5: the CSV file for `p` is named `daubechies_<p>_scaling_convergence.csv`,
carries one header row of the columns appropriate to `p`, and has exactly one
data row per integer resolution `r` with `2 ≤ r ≤ 15 = rmax - 2`, in
increasing order; each data row carries the resolution and then exactly one
recorded sup-norm error per named column. -/
theorem csv_file_shape (lib : ExternalLib) (p : ℕ) :
    (csvOutput lib p).name = "daubechies_" ++ toString p ++ "_scaling_convergence.csv" ∧
    (csvOutput lib p).header = csvHeader p ∧
    (csvOutput lib p).rows.map Prod.fst = List.range' 2 14 ∧
    (∀ q, q ∈ (csvOutput lib p).rows.map Prod.fst ↔ 2 ≤ q ∧ q ≤ 15) ∧
    ∀ row ∈ (csvOutput lib p).rows, row.2.length + 1 = (csvHeader p).length := by
  have hmap : (csvOutput lib p).rows.map Prod.fst = List.range' 2 14 := by
    show (List.map (fun r => (r, (schemeSups lib p r).map Prod.fst)) (List.range' 2 14)).map
        Prod.fst = List.range' 2 14
    rw [List.map_map,
      show (Prod.fst ∘ fun r : ℕ => (r, (schemeSups lib p r).map Prod.fst)) = id from rfl,
      List.map_id]
  refine ⟨rfl, rfl, hmap, ?_, ?_⟩
  · intro q
    rw [hmap]
    constructor
    · intro hq
      fin_cases hq <;> omega
    · rintro ⟨h1, h2⟩
      interval_cases q <;> decide
  · intro row hrow
    simp only [csvOutput, List.mem_map] at hrow
    obtain ⟨r, _, hr⟩ := hrow
    rw [← hr]
    simp only [List.length_map, schemeSups_length, csvHeader_length]
    split_ifs <;> rfl

/-- Witness for C5: the first data row of the `p = 2` CSV over the trivial
library is the row for `r = 2` with nine recorded errors, one per error
column of the ten-column header. -/
theorem csv_file_shape_witness :
    ((2, List.replicate 9 (0 : ℚ)) : ℕ × List ℚ).2.length + 1 = (csvHeader 2).length :=
  (csv_file_shape wLib 2).2.2.2.2 (2, List.replicate 9 0) (by decide)

/-- C6: the program is a closed batch computation — `main` reads no input,
so two invocations (arbitrary process inputs) produce the identical CSV
files for every `p` and execute the identical event sequence. -/
theorem program_is_deterministic (lib : ExternalLib) (inp inp' : List String) :
    runProgram lib inp = runProgram lib inp' ∧ runTrace lib inp = runTrace lib inp' :=
  ⟨rfl, rfl⟩

lemma two_p_sub_one_cast (p : ℕ) (hp : 1 ≤ p) :
    ((2 * p - 1 : ℕ) : ℚ) = 2 * (p : ℚ) - 1 := by
  have h2p : 1 ≤ 2 * p := by omega
  push_cast [Nat.cast_sub h2p]
  ring

lemma support_size_cast (p r : ℕ) (hp : 1 ≤ p) :
    (((2 * p - 1) * 2 ^ r : ℕ) : ℚ) = (2 * (p : ℚ) - 1) * 2 ^ r := by
  push_cast [two_p_sub_one_cast p hp]
  ring

/-- C7: when the candidate dyadic grid at level `r` has `(2p-1)·2^r + 1`
points, the spacing `dx = (2p-1)/(x.size()-1)` is exactly `2^(-r)` (the
`1/(1<<r)` the program prints), and the abscissas `x[i] = i·dx` cover the
support `[0, 2p-1]`: both endpoints are grid abscissas and every abscissa
lies in `[0, 2p-1]`. -/
theorem dx_is_exactly_inverse_power_of_two (lib : ExternalLib) (p r : ℕ) (hp : 1 ≤ p)
    (hlen : (phiGrid lib p r).length = (2 * p - 1) * 2 ^ r + 1) :
    dxGrid lib p r = 1 / 2 ^ r ∧
    (0 : ℚ) ∈ xGrid lib p r ∧ (2 * (p : ℚ) - 1) ∈ xGrid lib p r ∧
    ∀ y ∈ xGrid lib p r, 0 ≤ y ∧ y ≤ 2 * (p : ℚ) - 1 := by
  have hp1 : (1 : ℚ) ≤ (p : ℚ) := by exact_mod_cast hp
  have hApos : (0 : ℚ) < 2 * (p : ℚ) - 1 := by linarith
  set m : ℕ := 2 * p - 1 with hm_def
  have hmQ : (m : ℚ) = 2 * (p : ℚ) - 1 := by
    rw [hm_def]
    exact two_p_sub_one_cast p hp
  have hdx : dxGrid lib p r = 1 / 2 ^ r := by
    unfold dxGrid
    rw [hlen, show (m * 2 ^ r + 1 - 1 : ℕ) = m * 2 ^ r from by omega]
    push_cast
    rw [hmQ, div_eq_div_iff (by positivity) (by positivity)]
    ring
  have hends : ((m * 2 ^ r : ℕ) : ℚ) * dxGrid lib p r = 2 * (p : ℚ) - 1 := by
    rw [hdx]
    push_cast
    rw [hmQ]
    field_simp
  refine ⟨hdx, ?_, ?_, ?_⟩
  · refine List.mem_map.mpr ⟨0, List.mem_range.mpr ?_, by simp⟩
    rw [hlen]
    exact Nat.succ_pos _
  · refine List.mem_map.mpr ⟨m * 2 ^ r, List.mem_range.mpr ?_, hends⟩
    rw [hlen]
    exact Nat.lt_succ_self _
  · intro y hy
    obtain ⟨i, hir, rfl⟩ := List.mem_map.mp hy
    have hi := List.mem_range.mp hir
    rw [hlen] at hi
    constructor
    · rw [hdx]
      exact mul_nonneg (by positivity) (by positivity)
    · have hile : (i : ℚ) ≤ ((m * 2 ^ r : ℕ) : ℚ) := by
        exact_mod_cast Nat.lt_succ_iff.mp hi
      calc (i : ℚ) * dxGrid lib p r
          ≤ ((m * 2 ^ r : ℕ) : ℚ) * dxGrid lib p r := by
            apply mul_le_mul_of_nonneg_right hile
            rw [hdx]
            positivity
        _ = 2 * (p : ℚ) - 1 := hends

/-- External library whose every grid has thirteen points; at `p = 2`,
`r = 2` this is the size `(2p-1)·2^r + 1` the real `dyadic_grid` returns. -/
def wLib7 : ExternalLib :=
  ⟨fun _ _ _ => List.replicate 13 0, fun _ _ _ _ => 0, fun _ _ _ _ _ _ => 0,
   fun _ _ _ _ _ _ => 0, fun _ _ _ _ => 0, fun _ _ _ _ _ => 0, fun _ _ _ => 0,
   fun _ _ _ => 0, fun _ _ _ _ _ _ => 0, fun _ _ _ _ _ _ _ => 0⟩

/-- Witness for C7 at `p = 2`, `r = 2` with a thirteen-point grid. -/
theorem dx_is_exactly_inverse_power_of_two_witness :
    dxGrid wLib7 2 2 = 1 / 2 ^ 2 ∧
    (0 : ℚ) ∈ xGrid wLib7 2 2 ∧ (2 * (2 : ℚ) - 1) ∈ xGrid wLib7 2 2 ∧
    ∀ y ∈ xGrid wLib7 2 2, 0 ≤ y ∧ y ≤ 2 * (2 : ℚ) - 1 :=
  dx_is_exactly_inverse_power_of_two wLib7 2 2 (by norm_num) (by rfl)

/-- C8: on the evaluation domain `0 < x < 2p-1` and in exact arithmetic,
the index `kk = static_cast<size_t>(floor((1 << r)·x))` of the ad-hoc linear
interpolator satisfies `0 ≤ floor((1 << r)·x)` and `kk + 1 ≤ phi.size() - 1`
whenever `phi` has the dyadic-grid size `(2p-1)·2^r + 1`, so both accesses
`phi[kk]` and `phi[kk+1]` are in bounds. -/
theorem linear_index_within_bounds (p r : ℕ) (x : ℚ) (phi : List ℚ) (hp : 1 ≤ p)
    (hlen : phi.length = (2 * p - 1) * 2 ^ r + 1)
    (h0 : 0 < x) (h1 : x < 2 * (p : ℚ) - 1) :
    0 ≤ ⌊(2 ^ r : ℚ) * x⌋ ∧ linearIndex r x + 1 < phi.length := by
  have hy : (0 : ℚ) < (2 ^ r : ℚ) * x := by positivity
  have hfl : 0 ≤ ⌊(2 ^ r : ℚ) * x⌋ := Int.floor_nonneg.mpr hy.le
  have hub : (2 ^ r : ℚ) * x < (((2 * p - 1) * 2 ^ r : ℕ) : ℚ) := by
    rw [support_size_cast p r hp]
    calc (2 ^ r : ℚ) * x < (2 ^ r : ℚ) * (2 * (p : ℚ) - 1) :=
          mul_lt_mul_of_pos_left h1 (by positivity)
      _ = (2 * (p : ℚ) - 1) * 2 ^ r := by ring
  have hflt : ⌊(2 ^ r : ℚ) * x⌋ < (((2 * p - 1) * 2 ^ r : ℕ) : ℤ) :=
    Int.floor_lt.mpr (by exact_mod_cast hub)
  refine ⟨hfl, ?_⟩
  unfold linearIndex
  omega

/-- Witness for C8 at `p = 2`, `r = 1`, `x = 1/2`, on a seven-point grid. -/
theorem linear_index_within_bounds_witness :
    0 ≤ ⌊(2 ^ 1 : ℚ) * (1 / 2)⌋ ∧
    linearIndex 1 (1 / 2) + 1 < (List.replicate 7 (0 : ℚ)).length :=
  linear_index_within_bounds 2 1 (1 / 2) (List.replicate 7 0) (by norm_num)
    (by rfl) (by norm_num) (by norm_num)

/-- C9: the ad-hoc linear interpolator and the first-, second- and
third-order Taylor interpolators all return exactly `0` whenever
`x ≤ 0` or `x ≥ 2p-1`, i.e. they vanish identically outside the open
support `(0, 2p-1)` of the scaling function. -/
theorem adhoc_schemes_vanish_outside_support
    (phi phi_prime phi_dbl_prime phi_triple_prime : List ℚ) (p r : ℕ) (x : ℚ)
    (h : x ≤ 0 ∨ 2 * (p : ℚ) - 1 ≤ x) :
    linear phi p r x = 0 ∧ fotaylor phi phi_prime p r x = 0 ∧
    sotaylor phi phi_prime phi_dbl_prime p r x = 0 ∧
    totaylor phi phi_prime phi_dbl_prime phi_triple_prime p r x = 0 := by
  refine ⟨?_, ?_, ?_, ?_⟩
  · unfold linear; rw [if_pos h]
  · unfold fotaylor; rw [if_pos h]
  · unfold sotaylor; rw [if_pos h]
  · unfold totaylor; rw [if_pos h]

/-- Witness for C9 at `x = -1`, `p = 2`. -/
theorem adhoc_schemes_vanish_outside_support_witness :
    linear [] 2 0 (-1) = 0 ∧ fotaylor [] [] 2 0 (-1) = 0 ∧
    sotaylor [] [] [] 2 0 (-1) = 0 ∧ totaylor [] [] [] [] 2 0 (-1) = 0 :=
  adhoc_schemes_vanish_outside_support [] [] [] [] 2 0 (-1)
    (Or.inl (by norm_num))

/-- C10: in exact arithmetic, the ad-hoc linear interpolator reproduces the
candidate grid at its nodes: if `0 < x < 2p-1` and `(1 << r)·x` is the
integer `k`, then `linear(x) = phi[k]`. -/
theorem linear_reproduces_grid_nodes (phi : List ℚ) (p r : ℕ) (x : ℚ) (k : ℕ)
    (h0 : 0 < x) (h1 : x < 2 * (p : ℚ) - 1) (hk : (2 ^ r : ℚ) * x = k) :
    linear phi p r x = phi.getD k 0 := by
  have hno : ¬(x ≤ 0 ∨ 2 * (p : ℚ) - 1 ≤ x) := by
    push_neg
    exact ⟨h0, h1⟩
  unfold linear
  rw [if_neg hno]
  simp only [hk, Int.floor_natCast, Int.toNat_natCast, Int.cast_natCast, sub_self]
  ring

/-- Witness for C10: at `r = 1`, `x = 1/2`, node `k = 1` of `[5, 7, 9]`. -/
theorem linear_reproduces_grid_nodes_witness :
    linear [5, 7, 9] 2 1 (1 / 2) = ([5, 7, 9] : List ℚ).getD 1 0 :=
  linear_reproduces_grid_nodes [5, 7, 9] 2 1 (1 / 2) 1 (by norm_num) (by norm_num)
    (by norm_num)
